import Mathlib

/-!
# Verification of the autograph APK signer and monitor chain validation

A shallow embedding of `signer/apk/apk.go` (the PKCS7 detached-signature
producer) and of the monitor's certificate-chain / root-of-trust validators
(whose tests live in the repository; the validators themselves are modelled
from the specification).

External cryptographic primitives (the pkcs7 library, x509/PEM parsing,
SHA-256) are modelled: base64 and PEM framing are implemented for real,
following Go's `encoding/base64` std alphabet and `encoding/pem` layout;
signatures and certificate parsing use a concrete executable model.
-/

/-! ## Base64 (Go `encoding/base64` StdEncoding) -/

/-- The standard base64 alphabet, as in Go's `base64.StdEncoding`. -/
def b64Alphabet : List Char :=
  "ABCDEFGHIJKLMNOPQRSTUVWXYZabcdefghijklmnopqrstuvwxyz0123456789+/".data

/-- The character encoding a 6-bit value. -/
def b64Char (n : Nat) : Char := b64Alphabet.getD n 'A'

/-- The 6-bit value of an alphabet character, `none` for characters outside
the alphabet (Go reports those as `CorruptInputError`). -/
def b64Index (c : Char) : Option Nat :=
  let i := b64Alphabet.indexOf c
  if i < 64 then some i else none

/-- Encode a byte list in groups of three, exactly as Go's std encoder:
full groups become four alphabet characters, a trailing group of two becomes
three characters plus `=`, a trailing single byte two characters plus `==`. -/
def b64EncodeGroups : List Nat → List Char
  | b1 :: b2 :: b3 :: rest =>
      b64Char (b1 / 4) :: b64Char (b1 % 4 * 16 + b2 / 16) ::
      b64Char (b2 % 16 * 4 + b3 / 64) :: b64Char (b3 % 64) :: b64EncodeGroups rest
  | [b1, b2] =>
      [b64Char (b1 / 4), b64Char (b1 % 4 * 16 + b2 / 16), b64Char (b2 % 16 * 4), '=']
  | [b1] =>
      [b64Char (b1 / 4), b64Char (b1 % 4 * 16), '=', '=']
  | [] => []

/-- Decode four characters at a time, exactly as Go's std decoder: the input
length must be a multiple of four, `=` may appear only as final padding, and
(like Go's non-Strict decoder) trailing padding bits are not required to be
zero. -/
def b64DecodeGroups : List Char → Option (List Nat)
  | [] => some []
  | c1 :: c2 :: c3 :: c4 :: rest =>
    match b64Index c1, b64Index c2 with
    | some n1, some n2 =>
      if c3 = '=' then
        if c4 = '=' ∧ rest = [] then some [n1 * 4 + n2 / 16] else none
      else
        match b64Index c3 with
        | some n3 =>
          if c4 = '=' then
            if rest = [] then some [n1 * 4 + n2 / 16, n2 % 16 * 16 + n3 / 4] else none
          else
            match b64Index c4 with
            | some n4 =>
              match b64DecodeGroups rest with
              | some ds => some ((n1 * 4 + n2 / 16) :: (n2 % 16 * 16 + n3 / 4) ::
                                 (n3 % 4 * 64 + n4) :: ds)
              | none => none
            | none => none
        | none => none
    | _, _ => none
  | _ => none

/-- `base64.StdEncoding.EncodeToString`. -/
def b64Encode (bs : List Nat) : String := String.mk (b64EncodeGroups bs)

/-- `base64.StdEncoding.DecodeString` (modulo Go's newline skipping, which the
signer's inputs never exercise). -/
def b64Decode (s : String) : Option (List Nat) := b64DecodeGroups s.data

theorem b64Index_b64Char : ∀ n, n < 64 → b64Index (b64Char n) = some n := by
  decide

theorem b64Char_ne_pad : ∀ n, n < 64 → b64Char n ≠ '=' := by
  decide

/-- Decoding is left inverse to encoding on genuine byte lists. -/
theorem b64DecodeGroups_encodeGroups :
    ∀ bs : List Nat, (∀ b ∈ bs, b < 256) →
      b64DecodeGroups (b64EncodeGroups bs) = some bs := by
  intro bs
  induction bs using b64EncodeGroups.induct with
  | case1 b1 b2 b3 rest ih =>
    intro hb
    have h1 : b1 < 256 := hb b1 (by simp)
    have h2 : b2 < 256 := hb b2 (by simp)
    have h3 : b3 < 256 := hb b3 (by simp)
    have e1 := b64Index_b64Char (b1 / 4) (by omega)
    have e2 := b64Index_b64Char (b1 % 4 * 16 + b2 / 16) (by omega)
    have e3 := b64Index_b64Char (b2 % 16 * 4 + b3 / 64) (by omega)
    have e4 := b64Index_b64Char (b3 % 64) (by omega)
    have p3 := b64Char_ne_pad (b2 % 16 * 4 + b3 / 64) (by omega)
    have p4 := b64Char_ne_pad (b3 % 64) (by omega)
    have ihr : b64DecodeGroups (b64EncodeGroups rest) = some rest := by
      apply ih; intro b hbr; exact hb b (by simp [hbr])
    simp only [b64EncodeGroups, b64DecodeGroups, e1, e2, e3, e4, ihr,
      if_neg p3, if_neg p4]
    have r1 : b1 / 4 * 4 + (b1 % 4 * 16 + b2 / 16) / 16 = b1 := by omega
    have r2 : (b1 % 4 * 16 + b2 / 16) % 16 * 16 + (b2 % 16 * 4 + b3 / 64) / 4 = b2 := by
      omega
    have r3 : (b2 % 16 * 4 + b3 / 64) % 4 * 64 + b3 % 64 = b3 := by omega
    rw [r1, r2, r3]
  | case2 b1 b2 =>
    intro hb
    have h1 : b1 < 256 := hb b1 (by simp)
    have h2 : b2 < 256 := hb b2 (by simp)
    have e1 := b64Index_b64Char (b1 / 4) (by omega)
    have e2 := b64Index_b64Char (b1 % 4 * 16 + b2 / 16) (by omega)
    have e3 := b64Index_b64Char (b2 % 16 * 4) (by omega)
    have p3 := b64Char_ne_pad (b2 % 16 * 4) (by omega)
    simp only [b64EncodeGroups, b64DecodeGroups, e1, e2, e3, if_neg p3]
    have r1 : b1 / 4 * 4 + (b1 % 4 * 16 + b2 / 16) / 16 = b1 := by omega
    have r2 : (b1 % 4 * 16 + b2 / 16) % 16 * 16 + b2 % 16 * 4 / 4 = b2 := by omega
    simp [r1, r2]
    omega
  | case3 b1 =>
    intro hb
    have h1 : b1 < 256 := hb b1 (by simp)
    have e1 := b64Index_b64Char (b1 / 4) (by omega)
    have e2 := b64Index_b64Char (b1 % 4 * 16) (by omega)
    simp only [b64EncodeGroups, b64DecodeGroups, e1, e2]
    have r1 : b1 / 4 * 4 + b1 % 4 * 16 / 16 = b1 := by omega
    simp [r1]
    omega
  | case4 =>
    intro _
    rfl

/-- Decoding a full encode round trip, at the string level. -/
theorem b64Decode_b64Encode (bs : List Nat) (hb : ∀ b ∈ bs, b < 256) :
    b64Decode (b64Encode bs) = some bs := by
  simpa [b64Decode, b64Encode] using b64DecodeGroups_encodeGroups bs hb

/-! ## Byte serialization of naturals

The pkcs7 model serializes its fields into bytes with a self-delimiting
encoding: the base-255 digits of the number (each `< 255`) followed by the
marker byte `255`. -/

/-- Little-endian base-255 digits of `n`, with explicit fuel so the kernel
can evaluate it; `fuel = n` always suffices. -/
def digitsF : Nat → Nat → List Nat
  | 0, _ => []
  | fuel + 1, n => if n = 0 then [] else n % 255 :: digitsF fuel (n / 255)

/-- Little-endian base-255 digits of `n`. -/
def natDigits (n : Nat) : List Nat := digitsF n n

/-- Value of a little-endian base-255 digit list. -/
def fromDigits : List Nat → Nat
  | [] => 0
  | d :: ds => d + 255 * fromDigits ds

theorem digitsF_lt (fuel n : Nat) : ∀ d ∈ digitsF fuel n, d < 255 := by
  induction fuel generalizing n with
  | zero => simp [digitsF]
  | succ fuel ih =>
    intro d hd
    by_cases h : n = 0
    · simp [digitsF, h] at hd
    · simp only [digitsF, if_neg h, List.mem_cons] at hd
      rcases hd with hd | hd
      · omega
      · exact ih (n / 255) d hd

theorem fromDigits_digitsF (fuel n : Nat) (h : n ≤ fuel) :
    fromDigits (digitsF fuel n) = n := by
  induction fuel generalizing n with
  | zero => simp_all [digitsF, fromDigits]
  | succ fuel ih =>
    by_cases hn : n = 0
    · simp [digitsF, hn, fromDigits]
    · have : n / 255 ≤ fuel := by
        have := Nat.div_lt_self (by omega : 0 < n) (by omega : 1 < 255)
        omega
      simp only [digitsF, if_neg hn, fromDigits, ih (n / 255) this]
      omega

/-- Self-delimiting byte encoding of a natural number: its base-255 digits
followed by the marker byte `255`. -/
def encNat (n : Nat) : List Nat := natDigits n ++ [255]

/-- Read digits until the marker `255`, returning the decoded number and the
remaining bytes. -/
def decNatAux : List Nat → List Nat → Option (Nat × List Nat)
  | _, [] => none
  | acc, b :: rest =>
    if b = 255 then some (fromDigits acc.reverse, rest) else decNatAux (b :: acc) rest

/-- Decode a self-delimited natural from the front of a byte list. -/
def decNat (bs : List Nat) : Option (Nat × List Nat) := decNatAux [] bs

theorem decNatAux_spec (ds : List Nat) (hds : ∀ d ∈ ds, d < 255) :
    ∀ acc rest, decNatAux acc (ds ++ 255 :: rest) =
      some (fromDigits (acc.reverse ++ ds), rest) := by
  induction ds with
  | nil =>
    intro acc rest
    simp [decNatAux]
  | cons d ds ih =>
    intro acc rest
    have hd : d < 255 := hds d (by simp)
    have hrec := ih (fun x hx => hds x (by simp [hx])) (d :: acc) rest
    simp only [List.cons_append, decNatAux, List.append_eq, if_neg (by omega : ¬d = 255)]
    rw [hrec]
    simp

/-- Decoding is left inverse to `encNat`, with the remainder preserved. -/
theorem decNat_encNat (n : Nat) (rest : List Nat) :
    decNat (encNat n ++ rest) = some (n, rest) := by
  have hds : ∀ d ∈ natDigits n, d < 255 := digitsF_lt n n
  have := decNatAux_spec (natDigits n) hds [] rest
  simp only [decNat, encNat, List.append_assoc, List.cons_append, List.nil_append] at *
  rw [this]
  simp [natDigits, fromDigits_digitsF n n (le_refl n)]

theorem encNat_bytes_lt (n : Nat) : ∀ b ∈ encNat n, b < 256 := by
  intro b hb
  simp only [encNat, List.mem_append, List.mem_singleton] at hb
  rcases hb with hb | hb
  · exact lt_trans (digitsF_lt n n b hb) (by norm_num)
  · omega

/-! ## Certificates and the model signature scheme

`x509.Certificate` is modelled with the fields the embedded code inspects.
Key pairs are modelled as a single natural number (the private key and the
public key coincide); `sigKey` records which key produced the certificate's
own signature, so that `CheckSignatureFrom` is checkable; `derHash` stands
for the SHA-256 digest of the certificate's DER encoding (the hash itself is
an external primitive). -/

structure Certificate where
  subject : String
  issuer : String
  pubKey : Nat
  sigKey : Nat
  notBefore : Int
  notAfter : Int
  derHash : List Nat
  deriving Repr, DecidableEq

/-- Model content digest (stands for the message digest computed by pkcs7). -/
def digestOf (msg : List Nat) : Nat := Nat.pair (Nat.ofDigits 256 msg) msg.length

/-- Model signing: a signature is the pair of the signing key and the digest. -/
def signOver (key : Nat) (msg : List Nat) : Nat := Nat.pair key (digestOf msg)

/-- Model signature verification against a public key: succeeds exactly when
the signature was produced over `msg` by the key matching `pub`. -/
def verifySig (pub sig : Nat) (msg : List Nat) : Bool := sig == signOver pub msg

/-- `cert.CheckSignatureFrom(parent)` together with the issuer check: the
child's signature must verify under the parent's key and the parent must be
the child's issuer. -/
def checkSignatureFrom (child parent : Certificate) : Bool :=
  child.issuer == parent.subject && child.sigKey == parent.pubKey

/-! ## The pkcs7 library model (`go.mozilla.org/pkcs7`) -/

/-- A signed-data structure being built (`pkcs7.SignedData`). -/
structure SignedData where
  content : List Nat
  signerPub : Nat
  sig : Nat
  detached : Bool
  deriving Repr, DecidableEq

/-- A parsed signed-data structure (`pkcs7.PKCS7`). -/
structure PKCS7 where
  Content : List Nat
  signerPub : Nat
  sig : Nat
  deriving Repr, DecidableEq

/-- `pkcs7.NewSignedData`: wraps the content, no signer yet. In the model the
library's internal failures do not occur. -/
def pkcs7NewSignedData (input : List Nat) : SignedData :=
  { content := input, signerPub := 0, sig := 0, detached := false }

/-- `(*SignedData).AddSigner`: embeds the certificate and signs the content
with the private key. -/
def pkcs7AddSigner (sd : SignedData) (cert : Certificate) (key : Nat) : SignedData :=
  { sd with signerPub := cert.pubKey, sig := signOver key sd.content }

/-- `(*SignedData).Detach`: drops the content from the serialized form. -/
def pkcs7Detach (sd : SignedData) : SignedData := { sd with detached := true }

/-- Length-prefixed byte-list serialization. -/
def encBytes (bs : List Nat) : List Nat := encNat bs.length ++ bs

/-- `(*SignedData).Finish`: serializes to bytes. Byte `0` heads a detached
structure (content omitted), byte `1` an attached one. -/
def pkcs7Finish (sd : SignedData) : List Nat :=
  (if sd.detached then [0] else 1 :: encBytes sd.content) ++
    encNat sd.signerPub ++ encNat sd.sig

/-- `pkcs7.Parse`: inverts `pkcs7Finish`; any other byte shape is rejected. -/
def pkcs7Parse (data : List Nat) : Option PKCS7 :=
  match data with
  | 0 :: rest =>
    match decNat rest with
    | some (p, rest1) =>
      match decNat rest1 with
      | some (s, rest2) => if rest2 = [] then some ⟨[], p, s⟩ else none
      | none => none
    | none => none
  | 1 :: rest =>
    match decNat rest with
    | some (len, rest1) =>
      if len ≤ rest1.length then
        match decNat (rest1.drop len) with
        | some (p, rest2) =>
          match decNat rest2 with
          | some (s, rest3) => if rest3 = [] then some ⟨rest1.take len, p, s⟩ else none
          | none => none
        | none => none
      else none
    | none => none
  | _ => none

/-- Parsing a finished detached structure recovers its fields (content empty:
a detached signature omits the payload). -/
theorem pkcs7Parse_finish (sd : SignedData) (h : sd.detached = true) :
    pkcs7Parse (pkcs7Finish sd) = some ⟨[], sd.signerPub, sd.sig⟩ := by
  simp only [pkcs7Finish, h, if_pos]
  have h1 := decNat_encNat sd.signerPub (encNat sd.sig)
  have h2 := decNat_encNat sd.sig []
  simp only [List.append_nil] at h2
  simp [pkcs7Parse, h1, h2]

/-- Every byte of a finished detached structure is a real byte. -/
theorem pkcs7Finish_bytes_lt (sd : SignedData) (h : sd.detached = true) :
    ∀ b ∈ pkcs7Finish sd, b < 256 := by
  intro b hb
  simp only [pkcs7Finish, h, if_pos, List.append_assoc, List.mem_append,
    List.mem_singleton] at hb
  rcases hb with hb | hb | hb
  · omega
  · exact encNat_bytes_lt _ b hb
  · exact encNat_bytes_lt _ b hb

/-! ## The signer package (`go.mozilla.org/autograph/signer`)

`signer.Configuration` as consumed by the apk signer. The Go field `Type`
collides with a Lean keyword and is rendered `Type'`. -/

structure Configuration where
  Type' : String
  ID : String
  PrivateKey : String
  Certificate : String
  deriving Repr, DecidableEq

/-- The external parsing primitives and the clock that `New` consults:
`signer.ParsePrivateKey`, `pem.Decode`, `x509.ParseCertificate`, `time.Now`.
They are opaque to the apk signer, so the embedding abstracts them as
fields. -/
structure Env where
  parsePrivateKey : String → Option Nat
  pemDecode : String → Option (List Nat)
  parseCertificate : List Nat → Option Certificate
  now : Int

/-! ## The apk signer (`signer/apk/apk.go`) -/

/-- `Type` of this signer is `"apk"`. (`apkType` since `Type` is taken.) -/
def apkType : String := "apk"

/-- `APKSigner`: the embedded `signer.Configuration` plus the parsed signing
key and certificate. -/
structure APKSigner where
  cfg : Configuration
  signingKey : Nat
  signingCert : Certificate
  deriving Repr, DecidableEq

/-- `New` initializes an apk signer using a configuration. Go returns the
pair `(*APKSigner, error)`; every failing branch returns a nil signer, so the
first component is an `Option`. Wrapped causes (`errors.Wrap`) are modelled
by the static message prefix. -/
def New (env : Env) (conf : Configuration) : Option APKSigner × Option String :=
  if conf.Type' ≠ apkType then
    (none, some ("apk: invalid type \"" ++ conf.Type' ++ "\", must be \"apk\""))
  else if conf.ID = "" then
    (none, some "apk: missing signer ID in signer configuration")
  else if conf.PrivateKey = "" then
    (none, some "apk: missing private key in signer configuration")
  else
    match env.parsePrivateKey conf.PrivateKey with
    | none => (none, some "apk: failed to parse private key")
    | some key =>
      match env.pemDecode conf.Certificate with
      | none => (none, some "apk: failed to parse certificate PEM")
      | some der =>
        match env.parseCertificate der with
        | none => (none, some "apk: could not parse X.509 certificate")
        | some cert =>
          if env.now < cert.notBefore ∨ env.now > cert.notAfter then
            (none, some "apk: signer certificate is not currently valid")
          else
            (some { cfg := { Type' := conf.Type', ID := conf.ID,
                             PrivateKey := conf.PrivateKey, Certificate := "" },
                    signingKey := key, signingCert := cert }, none)

/-- `Config` returns the configuration of the current signer. -/
def Config (s : APKSigner) : Configuration :=
  { ID := s.cfg.ID, Type' := s.cfg.Type',
    PrivateKey := s.cfg.PrivateKey, Certificate := s.cfg.Certificate }

/-- `Signature` is a PKCS7 detached signature: the parsed structure (nil
until unmarshaled), the raw bytes, and the lifecycle flag. -/
structure Signature where
  p7 : Option PKCS7
  Data : List Nat
  Finished : Bool
  deriving Repr, DecidableEq

/-- `SignData` takes input data and returns a PKCS7 detached signature. The
model pkcs7 operations are total, so the Go error branches do not fire. -/
def SignData (s : APKSigner) (input : List Nat) : Option Signature × Option String :=
  let toBeSigned := pkcs7NewSignedData input
  let toBeSigned := pkcs7AddSigner toBeSigned s.signingCert s.signingKey
  let toBeSigned := pkcs7Detach toBeSigned
  (some { p7 := none, Data := pkcs7Finish toBeSigned, Finished := true }, none)

/-- `Marshal` returns the base64 representation of a PKCS7 detached
signature, or the zero string with a state error. -/
def Marshal (sig : Signature) : String × Option String :=
  if sig.Finished = false then
    ("", some "apk: cannot marshal unfinished signature")
  else if sig.Data = [] then
    ("", some "apk: cannot marshal empty signature data")
  else
    (b64Encode sig.Data, none)

/-- `Unmarshal` takes the base64 representation of a PKCS7 detached signature
and the content of the signed data, and returns a PKCS7 struct. The returned
`Signature` is always a value (Go allocates it with `new` before any check),
partially filled on error. -/
def Unmarshal (signature : String) (content : List Nat) : Signature × Option String :=
  match b64Decode signature with
  | none =>
    ({ p7 := none, Data := [], Finished := false },
     some "apk.Unmarshal: failed to decode base64 signature")
  | some data =>
    match pkcs7Parse data with
    | none =>
      ({ p7 := none, Data := data, Finished := false },
       some "apk.Unmarshal: failed to parse pkcs7 signature")
    | some p7 =>
      ({ p7 := some { p7 with Content := content }, Data := data, Finished := true },
       none)

/-- Does a parsed structure verify against a certificate and a payload?
(`p7.Verify` checks the embedded signer's signature over the attached
content; the claim additionally pins the certificate and the payload.) -/
def verifyAgainst (p7 : PKCS7) (cert : Certificate) (content : List Nat) : Bool :=
  p7.signerPub == cert.pubKey && p7.Content == content &&
    verifySig cert.pubKey p7.sig p7.Content

/-! ## PEM framing (`encoding/pem`) and the `String` method -/

/-- Split a list into chunks of `n + 1` elements (the last possibly
shorter), as Go's `pem.Encode` wraps base64 at 64 columns. -/
def chunksBy (n : Nat) : List Char → List (List Char)
  | [] => []
  | c :: rest => ((c :: rest).take (n + 1)) :: chunksBy n ((c :: rest).drop (n + 1))
termination_by l => l.length
decreasing_by simp; omega

/-- Rejoining the chunks restores the original list. -/
theorem chunksBy_join (n : Nat) (l : List Char) : (chunksBy n l).flatten = l := by
  induction l using chunksBy.induct n with
  | case1 => simp [chunksBy]
  | case2 c rest ih =>
    rw [chunksBy]
    simp only [List.flatten_cons, ih, List.take_append_drop]

/-- `pem.Encode` with an empty header map: the BEGIN line, the base64 body
wrapped at 64 columns with one line feed per line, and the END line. -/
def pemEncode (label : String) (bs : List Nat) : String :=
  ("-----BEGIN " ++ label ++ "-----\n") ++
    String.join ((chunksBy 63 (b64EncodeGroups bs)).map (fun l => String.mk l ++ "\n")) ++
    ("-----END " ++ label ++ "-----\n")

/-- `String` returns a PEM encoded PKCS7 block. (`SigToString` for the Go
method `(*Signature).String`.) -/
def SigToString (sig : Signature) : String := pemEncode "PKCS7" sig.Data

/-! ## Substring containment (for error-message claims) -/

/-- Does `needle` occur contiguously inside `hay`? (List level.) -/
def containsSub (hay needle : List Char) : Bool :=
  (List.range (hay.length + 1)).any fun i => needle.isPrefixOf (hay.drop i)

/-- Does `needle` occur contiguously inside `hay`? (`strings.Contains`.) -/
def strContains (hay needle : String) : Bool := containsSub hay.data needle.data

/-- A string built around `needle` contains it. -/
theorem strContains_append (a needle b : String) :
    strContains (a ++ needle ++ b) needle = true := by
  simp only [strContains, containsSub, String.data_append, List.any_eq_true,
    List.mem_range]
  refine ⟨a.data.length, by simp; omega, ?_⟩
  rw [List.append_assoc, List.drop_left]
  exact List.isPrefixOf_iff_prefix.mpr (List.prefix_append _ _)

/-! ## The monitor's chain and root validators

The functions `verifyRoot` and `verifyCertChain` exercised by the tests in
`src/unnamed/part_000` are not part of the provided sources; they are
modelled from the specification (sections 4.1, 4.2, 8), with the pinned root
hash and the clock passed explicitly per the dependency-injection design
note. -/

/-- One uppercase hex digit. -/
def hexDigit (n : Nat) : Char := "0123456789ABCDEF".data.getD n '0'

/-- Two uppercase hex digits of one byte. -/
def byteHex (b : Nat) : String := String.mk [hexDigit (b / 16 % 16), hexDigit (b % 16)]

/-- Uppercase colon-separated hex rendering of a byte list (the pinned-root
fingerprint format `97:E8:BA:...`). -/
def colonHex : List Nat → String
  | [] => ""
  | [b] => byteHex b
  | b :: rest => byteHex b ++ ":" ++ colonHex rest

/-- The certificate's SHA-256-over-DER fingerprint, rendered as uppercase
colon-separated hex; the digest itself is the modelled `derHash` field. -/
def fingerprint (cert : Certificate) : String := colonHex cert.derHash

/-- Is the certificate self-signed (subject equals issuer and the
self-signature verifies)? -/
def selfSigned (cert : Certificate) : Bool := checkSignatureFrom cert cert

/-- Modelled from the spec: the monitor's `verifyRoot` (section 4.1), absent
from the provided sources. Computes the DER-SHA256 fingerprint in uppercase
colon-separated hex; fails with a root-mismatch condition carrying both
expected and actual fingerprints when it differs from the pinned value;
fails with a root-invalid condition when the certificate is not self-signed
or is outside its own validity window; success is silent. -/
def verifyRoot (rootHash : String) (now : Int) (cert : Certificate) : Option String :=
  if fingerprint cert ≠ rootHash then
    some ("certificate " ++ "hash does not match expected root" ++
          (": expected " ++ rootHash ++ ", got " ++ fingerprint cert))
  else if selfSigned cert = false then
    some "root certificate is not self-signed"
  else if now < cert.notBefore ∨ now > cert.notAfter then
    some "root certificate is not currently valid"
  else
    none

/-- The margin the leaf certificate must still be valid for, in seconds. -/
def fifteenDays : Int := 15 * 24 * 60 * 60

/-- The chain-order condition for two adjacent certificates, identifying the
two offending subjects. -/
def linkFailureMsg (child parent : Certificate) : String :=
  ("certificate \"" ++ child.subject ++ "\" ") ++
    "is not signed by parent certificate" ++ (" \"" ++ parent.subject ++ "\"")

/-- Adjacency pass of the chain validator: for i from 0 to n-2, certificate i
must be signed by certificate i+1; the first violation raises the chain-order
condition. -/
def checkLinks : List Certificate → Option String
  | c0 :: c1 :: rest =>
    if checkSignatureFrom c0 c1 then checkLinks (c1 :: rest)
    else some (linkFailureMsg c0 c1)
  | _ => none

/-- The expiry condition for a leaf with less than 15 days of validity left. -/
def leafExpiryMsg (leaf : Certificate) : String :=
  ("certificate \"" ++ leaf.subject ++ "\" ") ++ "expires in less than 15 days"

/-- Modelled from the spec: the monitor's `verifyCertChain` (section 4.2),
absent from the provided sources. In the spec's order: the adjacency pass
(chain-order condition), then the root validator on the final element, then
the 15-day expiry margin on the leaf (position 0). A chain of length 1 is
valid only if its sole certificate passes the root validator. -/
def verifyCertChain (rootHash : String) (now : Int) (certs : List Certificate) :
    Option String :=
  match certs with
  | [] => some "empty certificate chain"
  | leaf :: rest =>
    match checkLinks (leaf :: rest) with
    | some e => some e
    | none =>
      match verifyRoot rootHash now ((leaf :: rest).getLast (by simp)) with
      | some e => some e
      | none =>
        if leaf.notAfter - now < fifteenDays then some (leafExpiryMsg leaf)
        else none

/-! ## Claims about the apk signer -/

/-- C3: `Marshal` returns the standard base64 encoding of the signature
bytes when and only when the signature is Finished and its data is
non-empty; on an unfinished signature or one with empty data it returns a
state error and the empty string. -/
theorem apk_Marshal_spec (sig : Signature) :
    (sig.Finished = true → sig.Data ≠ [] → Marshal sig = (b64Encode sig.Data, none)) ∧
    (sig.Finished = false →
      Marshal sig = ("", some "apk: cannot marshal unfinished signature")) ∧
    (sig.Finished = true → sig.Data = [] →
      Marshal sig = ("", some "apk: cannot marshal empty signature data")) ∧
    (∀ out, Marshal sig = (out, none) →
      sig.Finished = true ∧ sig.Data ≠ [] ∧ out = b64Encode sig.Data) := by
  refine ⟨?_, ?_, ?_, ?_⟩
  · intro hf hd
    simp [Marshal, hf, hd]
  · intro hf
    simp [Marshal, hf]
  · intro hf hd
    simp [Marshal, hf, hd]
  · intro out h
    rcases hf : sig.Finished with _ | _
    · simp [Marshal, hf] at h
    · rcases hd : sig.Data with _ | ⟨b, bs⟩
      · simp [Marshal, hf, hd] at h
      · simp [Marshal, hf, hd] at h
        exact ⟨rfl, by simp, h.symm⟩

/-- Witness for C3: a finished two-byte signature marshals to its base64;
a fresh unfinished signature fails with the state error. -/
theorem apk_Marshal_spec_witness :
    Marshal { p7 := none, Data := [1, 2], Finished := true } = (b64Encode [1, 2], none) ∧
    Marshal { p7 := none, Data := [], Finished := false } =
      ("", some "apk: cannot marshal unfinished signature") :=
  ⟨(apk_Marshal_spec _).1 rfl (by simp),
   (apk_Marshal_spec _).2.1 rfl⟩

/-- C4: `Unmarshal` decodes standard base64, parses the bytes as a detached
PKCS7 structure, attaches the supplied content and marks the result
Finished; non-base64 input or non-PKCS7 bytes yield a parse error. -/
theorem apk_Unmarshal_spec (s : String) (content : List Nat) :
    (b64Decode s = none →
      Unmarshal s content =
        ({ p7 := none, Data := [], Finished := false },
         some "apk.Unmarshal: failed to decode base64 signature")) ∧
    (∀ data, b64Decode s = some data → pkcs7Parse data = none →
      Unmarshal s content =
        ({ p7 := none, Data := data, Finished := false },
         some "apk.Unmarshal: failed to parse pkcs7 signature")) ∧
    (∀ data p7, b64Decode s = some data → pkcs7Parse data = some p7 →
      Unmarshal s content =
        ({ p7 := some { p7 with Content := content }, Data := data, Finished := true },
         none)) := by
  refine ⟨?_, ?_, ?_⟩
  · intro h
    simp [Unmarshal, h]
  · intro data h hp
    simp [Unmarshal, h, hp]
  · intro data p7 h hp
    simp [Unmarshal, h, hp]

/-- Witness for C4: `"!"` is rejected as base64; the base64 of `[9]` decodes
but is not a PKCS7 structure; the base64 of a finished detached structure
unmarshals successfully with the content attached. -/
theorem apk_Unmarshal_spec_witness :
    Unmarshal "!" [7] =
      ({ p7 := none, Data := [], Finished := false },
       some "apk.Unmarshal: failed to decode base64 signature") ∧
    Unmarshal (b64Encode [9]) [7] =
      ({ p7 := none, Data := [9], Finished := false },
       some "apk.Unmarshal: failed to parse pkcs7 signature") ∧
    Unmarshal (b64Encode [0, 5, 255, 9, 255]) [7] =
      ({ p7 := some { Content := [7], signerPub := 5, sig := 9 },
         Data := [0, 5, 255, 9, 255], Finished := true }, none) :=
  ⟨(apk_Unmarshal_spec "!" [7]).1 (by decide),
   (apk_Unmarshal_spec (b64Encode [9]) [7]).2.1 [9] (by decide) (by decide),
   (apk_Unmarshal_spec (b64Encode [0, 5, 255, 9, 255]) [7]).2.2 [0, 5, 255, 9, 255]
     { Content := [], signerPub := 5, sig := 9 } (by decide) (by decide)⟩

/-- C10: `Unmarshal` always returns a `Signature` value (the embedding's
return type is a plain `Signature`, mirroring Go's unconditional
`new(Signature)` — the caller never receives nil), and that signature is
Finished exactly when no error is returned. -/
theorem apk_Unmarshal_finished_iff_ok (s : String) (content : List Nat) :
    (Unmarshal s content).2 = none ↔ (Unmarshal s content).1.Finished = true := by
  unfold Unmarshal
  rcases h : b64Decode s with _ | data
  · simp
  · rcases hp : pkcs7Parse data with _ | p7 <;> simp [hp]

/-- C2: `New` fails with a configuration error naming the offending field
for a wrong format tag, an empty identifier, an unparseable private key
(including the empty one, reported as missing), an unparseable certificate
(PEM or X.509 stage) or a certificate outside its validity window at
construction time; every failure returns a nil signer, and success returns
the signer holding the parsed key and certificate. -/
theorem apk_New_validation (env : Env) (conf : Configuration) :
    (conf.Type' ≠ "apk" →
      New env conf =
        (none, some ("apk: invalid type \"" ++ conf.Type' ++ "\", must be \"apk\""))) ∧
    (conf.Type' = "apk" → conf.ID = "" →
      New env conf = (none, some "apk: missing signer ID in signer configuration")) ∧
    (conf.Type' = "apk" → conf.ID ≠ "" → conf.PrivateKey = "" →
      New env conf = (none, some "apk: missing private key in signer configuration")) ∧
    (conf.Type' = "apk" → conf.ID ≠ "" → conf.PrivateKey ≠ "" →
      env.parsePrivateKey conf.PrivateKey = none →
      New env conf = (none, some "apk: failed to parse private key")) ∧
    (∀ key, conf.Type' = "apk" → conf.ID ≠ "" → conf.PrivateKey ≠ "" →
      env.parsePrivateKey conf.PrivateKey = some key →
      env.pemDecode conf.Certificate = none →
      New env conf = (none, some "apk: failed to parse certificate PEM")) ∧
    (∀ key der, conf.Type' = "apk" → conf.ID ≠ "" → conf.PrivateKey ≠ "" →
      env.parsePrivateKey conf.PrivateKey = some key →
      env.pemDecode conf.Certificate = some der →
      env.parseCertificate der = none →
      New env conf = (none, some "apk: could not parse X.509 certificate")) ∧
    (∀ key der cert, conf.Type' = "apk" → conf.ID ≠ "" → conf.PrivateKey ≠ "" →
      env.parsePrivateKey conf.PrivateKey = some key →
      env.pemDecode conf.Certificate = some der →
      env.parseCertificate der = some cert →
      (env.now < cert.notBefore ∨ env.now > cert.notAfter) →
      New env conf = (none, some "apk: signer certificate is not currently valid")) ∧
    (∀ r1 e, New env conf = (r1, some e) → r1 = none) ∧
    (∀ s e, New env conf = (some s, e) →
      e = none ∧
      env.parsePrivateKey conf.PrivateKey = some s.signingKey ∧
      (∃ der, env.pemDecode conf.Certificate = some der ∧
              env.parseCertificate der = some s.signingCert) ∧
      ¬(env.now < s.signingCert.notBefore ∨ env.now > s.signingCert.notAfter)) := by
  refine ⟨?_, ?_, ?_, ?_, ?_, ?_, ?_, ?_, ?_⟩
  · intro h
    simp [New, apkType, h]
  · intro h1 h2
    simp [New, apkType, h1, h2]
  · intro h1 h2 h3
    simp [New, apkType, h1, h2, h3]
  · intro h1 h2 h3 h4
    simp [New, apkType, h1, h2, h3, h4]
  · intro key h1 h2 h3 h4 h5
    simp [New, apkType, h1, h2, h3, h4, h5]
  · intro key der h1 h2 h3 h4 h5 h6
    simp [New, apkType, h1, h2, h3, h4, h5, h6]
  · intro key der cert h1 h2 h3 h4 h5 h6 h7
    simp [New, apkType, h1, h2, h3, h4, h5, h6, h7]
  · intro r1 e h
    unfold New at h
    repeat' split at h
    all_goals simp_all
  · intro s e h
    unfold New at h
    repeat' split at h
    all_goals simp_all
    rename_i cert hkey hder hcert hval
    obtain ⟨hs, he⟩ := h
    subst hs
    exact ⟨rfl, rfl, hval⟩

/-- A concrete certificate for witnesses: self-signed, key 7, valid around
time 0. -/
def certW : Certificate :=
  { subject := "signer", issuer := "signer", pubKey := 7, sigKey := 7,
    notBefore := -1, notAfter := 1, derHash := [0] }

/-- A concrete environment for witnesses: `"k"` parses to key 7, `"c"`
PEM-decodes to `[3]` which parses to `certW`; the clock reads 0. -/
def envW : Env :=
  { parsePrivateKey := fun s => if s = "k" then some 7 else none,
    pemDecode := fun s => if s = "c" then some [3] else none,
    parseCertificate := fun d => if d = [3] then some certW else none,
    now := 0 }

/-- A concrete well-formed configuration for witnesses. -/
def confW : Configuration :=
  { Type' := "apk", ID := "i", PrivateKey := "k", Certificate := "c" }

/-- The signer `New envW confW` constructs. -/
def signerW : APKSigner :=
  { cfg := { Type' := "apk", ID := "i", PrivateKey := "k", Certificate := "" },
    signingKey := 7, signingCert := certW }

/-- Witness for C2: an empty identifier is rejected with the naming error
and a nil signer; the well-formed configuration succeeds and the signer
holds the parsed key and certificate. -/
theorem apk_New_validation_witness :
    New envW { confW with ID := "" } =
      (none, some "apk: missing signer ID in signer configuration") ∧
    (envW.parsePrivateKey confW.PrivateKey = some signerW.signingKey ∧
      (∃ der, envW.pemDecode confW.Certificate = some der ∧
              envW.parseCertificate der = some signerW.signingCert) ∧
      ¬(envW.now < signerW.signingCert.notBefore ∨
        envW.now > signerW.signingCert.notAfter)) :=
  ⟨(apk_New_validation envW { confW with ID := "" }).2.1 rfl rfl,
   ((apk_New_validation envW confW).2.2.2.2.2.2.2.2 signerW none (by decide)).2⟩

/-- C9: on every successful construction, `Config` returns the construction
configuration's ID, Type and PrivateKey, and an empty Certificate field —
`New` never copies the certificate PEM into the stored configuration. -/
theorem apk_Config_of_New (env : Env) (conf : Configuration) (s : APKSigner)
    (h : New env conf = (some s, none)) :
    Config s = { Type' := conf.Type', ID := conf.ID,
                 PrivateKey := conf.PrivateKey, Certificate := "" } := by
  unfold New at h
  repeat' split at h
  all_goals simp_all
  subst h
  rfl

/-- Witness for C9: the concrete construction stores ID, Type and
PrivateKey but leaves Certificate empty although `confW.Certificate` is
`"c"`. -/
theorem apk_Config_of_New_witness :
    Config signerW = { Type' := confW.Type', ID := confW.ID,
                       PrivateKey := confW.PrivateKey, Certificate := "" } :=
  apk_Config_of_New envW confW signerW (by decide)

/-- C1: for every payload, signing with a successfully constructed APK
signer, marshaling, then unmarshaling the encoding together with the same
payload yields a signature whose parsed structure verifies against the
signer's own certificate and the original payload. (`hpair` states the
data-model invariant that the signer's certificate belongs to its signing
key — section 3's SignerIdentity, "a private key paired with its
certificate"; `New` itself does not compare the two.) -/
theorem apk_sign_roundtrip (env : Env) (conf : Configuration) (s : APKSigner)
    (payload : List Nat) (_hnew : New env conf = (some s, none))
    (hpair : s.signingCert.pubKey = s.signingKey) :
    ∃ sig1 enc sig2 p7,
      SignData s payload = (some sig1, none) ∧
      Marshal sig1 = (enc, none) ∧
      Unmarshal enc payload = (sig2, none) ∧
      sig2.p7 = some p7 ∧
      verifyAgainst p7 s.signingCert payload = true := by
  set sd : SignedData :=
    pkcs7Detach (pkcs7AddSigner (pkcs7NewSignedData payload) s.signingCert s.signingKey)
    with hsd
  have hdet : sd.detached = true := rfl
  have hbytes : ∀ b ∈ pkcs7Finish sd, b < 256 := pkcs7Finish_bytes_lt sd hdet
  have hne : pkcs7Finish sd ≠ [] := by
    simp [pkcs7Finish, hdet]
  refine ⟨{ p7 := none, Data := pkcs7Finish sd, Finished := true },
          b64Encode (pkcs7Finish sd),
          { p7 := some { Content := payload, signerPub := sd.signerPub, sig := sd.sig },
            Data := pkcs7Finish sd, Finished := true },
          { Content := payload, signerPub := sd.signerPub, sig := sd.sig },
          ?_, ?_, ?_, rfl, ?_⟩
  · rfl
  · simp [Marshal, hne]
  · have hdec := b64Decode_b64Encode (pkcs7Finish sd) hbytes
    have hparse := pkcs7Parse_finish sd hdet
    simp [Unmarshal, hdec, hparse]
  · have hpub : sd.signerPub = s.signingCert.pubKey := rfl
    have hsig : sd.sig = signOver s.signingKey payload := rfl
    simp [verifyAgainst, verifySig, hpub, hsig, hpair]

/-- Witness for C1: the concrete signer round-trips the payload `[1, 2, 3]`
and the result verifies against its certificate. -/
theorem apk_sign_roundtrip_witness :
    ∃ sig1 enc sig2 p7,
      SignData signerW [1, 2, 3] = (some sig1, none) ∧
      Marshal sig1 = (enc, none) ∧
      Unmarshal enc [1, 2, 3] = (sig2, none) ∧
      sig2.p7 = some p7 ∧
      verifyAgainst p7 signerW.signingCert [1, 2, 3] = true :=
  apk_sign_roundtrip envW confW signerW [1, 2, 3] (by decide) rfl

/-- C8: the `String` rendering of a detached signature is a PEM block whose
type label is exactly `PKCS7`: the BEGIN/END lines carry the label, and the
body lines joined back together are the standard base64 of the signature's
data bytes. -/
theorem apk_String_pem (sig : Signature) (hb : ∀ b ∈ sig.Data, b < 256) :
    ∃ lines : List (List Char),
      SigToString sig =
        "-----BEGIN PKCS7-----\n" ++
          String.join (lines.map (fun l => String.mk l ++ "\n")) ++
          "-----END PKCS7-----\n" ∧
      b64DecodeGroups lines.flatten = some sig.Data := by
  refine ⟨chunksBy 63 (b64EncodeGroups sig.Data), ?_, ?_⟩
  · show ("-----BEGIN " ++ "PKCS7" ++ "-----\n") ++
        String.join ((chunksBy 63 (b64EncodeGroups sig.Data)).map
          (fun l => String.mk l ++ "\n")) ++
        ("-----END " ++ "PKCS7" ++ "-----\n") = _
    rw [show "-----BEGIN " ++ "PKCS7" ++ "-----\n" = "-----BEGIN PKCS7-----\n" by decide,
        show "-----END " ++ "PKCS7" ++ "-----\n" = "-----END PKCS7-----\n" by decide]
  · rw [chunksBy_join]
    exact b64DecodeGroups_encodeGroups _ hb

/-- Witness for C8: the PEM rendering of a three-byte signature. -/
theorem apk_String_pem_witness :
    ∃ lines : List (List Char),
      SigToString { p7 := none, Data := [1, 2, 3], Finished := true } =
        "-----BEGIN PKCS7-----\n" ++
          String.join (lines.map (fun l => String.mk l ++ "\n")) ++
          "-----END PKCS7-----\n" ∧
      b64DecodeGroups lines.flatten = some [1, 2, 3] :=
  apk_String_pem { p7 := none, Data := [1, 2, 3], Finished := true } (by decide)

/-! ## Claims about the monitor validators -/

theorem strContains_of_eq (hay a needle b : String) (h : hay = a ++ needle ++ b) :
    strContains hay needle = true := by
  rw [h]
  exact strContains_append a needle b

theorem strContains_append_right (a needle : String) :
    strContains (a ++ needle) needle = true := by
  have h := strContains_append a needle ""
  have he : a ++ needle ++ "" = a ++ needle := by
    rw [String.append_assoc]
    simp
  rwa [he] at h

/-- If some adjacent pair of the chain fails the signed-by check, the
adjacency pass reports a chain-order failure (for the first failing pair). -/
theorem checkLinks_fails :
    ∀ (certs : List Certificate) (i : Nat) (h : i + 1 < certs.length),
      checkSignatureFrom (certs.get ⟨i, by omega⟩) (certs.get ⟨i + 1, h⟩) = false →
      ∃ c0 c1, checkLinks certs = some (linkFailureMsg c0 c1) := by
  intro certs
  induction certs with
  | nil =>
    intro i h
    simp at h
  | cons c rest ih =>
    intro i h hfail
    cases rest with
    | nil =>
      simp at h
    | cons c1 rest' =>
      by_cases hc : checkSignatureFrom c c1 = true
      · cases i with
        | zero =>
          simp at hfail
          rw [hc] at hfail
          exact absurd hfail (by simp)
        | succ j =>
          have h' : j + 1 < (c1 :: rest').length := by
            simp at h ⊢
            omega
          have hfail' : checkSignatureFrom ((c1 :: rest').get ⟨j, by omega⟩)
              ((c1 :: rest').get ⟨j + 1, h'⟩) = false := by
            simpa using hfail
          obtain ⟨a, b, hab⟩ := ih j h' hfail'
          refine ⟨a, b, ?_⟩
          rw [checkLinks, if_pos hc]
          exact hab
      · refine ⟨c, c1, ?_⟩
        rw [checkLinks, if_neg hc]

/-- C6: a chain in which the certificate at some position i is not signed by
the one at position i+1 is rejected with a chain-order error whose message
contains "is not signed by parent certificate". -/
theorem chain_wrong_order_rejected (rootHash : String) (now : Int)
    (certs : List Certificate) (i : Nat) (h : i + 1 < certs.length)
    (hfail : checkSignatureFrom (certs.get ⟨i, by omega⟩) (certs.get ⟨i + 1, h⟩) = false) :
    ∃ e, verifyCertChain rootHash now certs = some e ∧
         strContains e "is not signed by parent certificate" = true := by
  obtain ⟨c0, c1, hlinks⟩ := checkLinks_fails certs i h hfail
  cases certs with
  | nil => simp at h
  | cons leaf rest =>
    refine ⟨linkFailureMsg c0 c1, ?_, ?_⟩
    · simp [verifyCertChain, hlinks]
    · exact strContains_append _ _ _

theorem strContains_of_eq_right (hay a needle : String) (h : hay = a ++ needle) :
    strContains hay needle = true := by
  rw [h]
  exact strContains_append_right a needle

/-- Witness chain for C6 (and counterexample input for C5): a two-element
chain whose leaf is not signed by the certificate that follows it, and whose
leaf moreover has less than 15 days of validity left at time 0. -/
def cexLeaf : Certificate :=
  { subject := "leaf", issuer := "root", pubKey := 1, sigKey := 99,
    notBefore := -10, notAfter := 5, derHash := [170] }

/-- The root of the C5/C6 chain: self-signed, fingerprint `AA`. -/
def cexRoot : Certificate :=
  { subject := "root", issuer := "root", pubKey := 2, sigKey := 2,
    notBefore := -10, notAfter := 100000000, derHash := [170] }

/-- Witness for C6: the two-element chain with the broken link at position 0
is rejected with the chain-order message. -/
theorem chain_wrong_order_rejected_witness :
    ∃ e, verifyCertChain "AA" 0 [cexLeaf, cexRoot] = some e ∧
         strContains e "is not signed by parent certificate" = true :=
  chain_wrong_order_rejected "AA" 0 [cexLeaf, cexRoot] 0 (by decide) (by decide)

/-- C7: the root validator accepts a self-signed, currently valid
certificate whose uppercase colon-separated fingerprint equals the pinned
value, and rejects any certificate whose fingerprint differs, with a message
containing "hash does not match expected root" together with both the
expected and the actual fingerprint. -/
theorem root_pinned_fingerprint_spec (rootHash : String) (now : Int)
    (cert : Certificate) :
    (fingerprint cert = rootHash → selfSigned cert = true →
      cert.notBefore ≤ now → now ≤ cert.notAfter →
      verifyRoot rootHash now cert = none) ∧
    (fingerprint cert ≠ rootHash →
      ∃ e, verifyRoot rootHash now cert = some e ∧
        strContains e "hash does not match expected root" = true ∧
        strContains e rootHash = true ∧
        strContains e (fingerprint cert) = true) := by
  constructor
  · intro hfp hss h1 h2
    have hv : ¬(now < cert.notBefore ∨ now > cert.notAfter) := by omega
    simp [verifyRoot, hfp, hss, hv]
  · intro hfp
    refine ⟨"certificate " ++ "hash does not match expected root" ++
        (": expected " ++ rootHash ++ ", got " ++ fingerprint cert),
      by simp [verifyRoot, hfp], ?_, ?_, ?_⟩
    · exact strContains_of_eq _ "certificate " "hash does not match expected root"
        (": expected " ++ rootHash ++ ", got " ++ fingerprint cert) rfl
    · apply strContains_of_eq _
        ("certificate " ++ "hash does not match expected root" ++ ": expected ")
        rootHash (", got " ++ fingerprint cert)
      simp only [String.append_assoc]
    · apply strContains_of_eq_right _
        ("certificate " ++ "hash does not match expected root" ++
          ": expected " ++ rootHash ++ ", got ")
      simp only [String.append_assoc]

/-- A known-good root for the C7 witness: self-signed, currently valid at
time 0, fingerprint `97:E8`. -/
def rootCertW : Certificate :=
  { subject := "root-ca", issuer := "root-ca", pubKey := 2, sigKey := 2,
    notBefore := -5, notAfter := 5, derHash := [151, 232] }

/-- Witness for C7: with the correct pin `97:E8` the root validates; with
the pin set to `foo` it fails carrying the expected message and both
fingerprints. -/
theorem root_pinned_fingerprint_spec_witness :
    verifyRoot "97:E8" 0 rootCertW = none ∧
    (∃ e, verifyRoot "foo" 0 rootCertW = some e ∧
      strContains e "hash does not match expected root" = true ∧
      strContains e "foo" = true ∧
      strContains e (fingerprint rootCertW) = true) :=
  ⟨(root_pinned_fingerprint_spec "97:E8" 0 rootCertW).1 (by decide) (by decide)
      (by decide) (by decide),
   (root_pinned_fingerprint_spec "foo" 0 rootCertW).2 (by decide)⟩

/-- Counterexample for C5 as stated: this chain's leaf has less than 15 days
of remaining validity at time 0, yet chain validation reports the
chain-order error of the broken link at position 0 — a message that does not
contain "expires in less than 15 days" — because the adjacency pass runs
before the expiry-margin check. -/
theorem chain_leaf_expiry_counterexample :
    cexLeaf.notAfter - 0 < fifteenDays ∧
    verifyCertChain "AA" 0 [cexLeaf, cexRoot] =
      some (linkFailureMsg cexLeaf cexRoot) ∧
    strContains (linkFailureMsg cexLeaf cexRoot)
      "expires in less than 15 days" = false := by
  refine ⟨by decide, by decide, by decide⟩

/-- C5 amended: every chain whose leaf has less than 15 days of remaining
validity is rejected; and when the adjacency and root checks pass, the error
is the expiry condition whose message contains "expires in less than
15 days". -/
theorem chain_leaf_expiry_amended (rootHash : String) (now : Int)
    (leaf : Certificate) (rest : List Certificate)
    (hexp : leaf.notAfter - now < fifteenDays) :
    (∃ e, verifyCertChain rootHash now (leaf :: rest) = some e) ∧
    (checkLinks (leaf :: rest) = none →
      verifyRoot rootHash now ((leaf :: rest).getLast (by simp)) = none →
      verifyCertChain rootHash now (leaf :: rest) = some (leafExpiryMsg leaf) ∧
      strContains (leafExpiryMsg leaf) "expires in less than 15 days" = true) := by
  constructor
  · rcases hl : checkLinks (leaf :: rest) with _ | e
    · rcases hr : verifyRoot rootHash now ((leaf :: rest).getLast (by simp)) with _ | e
      · exact ⟨leafExpiryMsg leaf, by simp [verifyCertChain, hl, hr, hexp]⟩
      · exact ⟨e, by simp [verifyCertChain, hl, hr]⟩
    · exact ⟨e, by simp [verifyCertChain, hl]⟩
  · intro hl hr
    exact ⟨by simp [verifyCertChain, hl, hr, hexp],
           strContains_append_right _ _⟩

/-- Witness for C5 (amended): a single self-signed root with matching pin,
currently valid but expiring within 15 days, is rejected with the expiry
message. -/
theorem chain_leaf_expiry_amended_witness :
    (∃ e, verifyCertChain "97:E8" 0 [rootCertW] = some e) ∧
    (verifyCertChain "97:E8" 0 [rootCertW] = some (leafExpiryMsg rootCertW) ∧
      strContains (leafExpiryMsg rootCertW) "expires in less than 15 days" = true) :=
  ⟨(chain_leaf_expiry_amended "97:E8" 0 rootCertW [] (by decide)).1,
   (chain_leaf_expiry_amended "97:E8" 0 rootCertW [] (by decide)).2
     (by decide) (by decide)⟩
